import Mathlib

/-!
Verification of the Quest Board scheduling backend.

The data model and route handlers below are a shallow embedding of
src/server.js (the Supabase variant, which carries every route the claims
mention); src/unnamed/part_001 and src/unnamed/part_002 implement the same
availability semantics (check-then-update/insert versus upsert on the
composite key (event_id, participant_name)).

JavaScript objects used as string-keyed maps are embedded as association
lists in property-insertion order; property assignment (`obj[k] = v`)
overwrites the value of an existing key in place and otherwise appends.
Database tables are embedded as lists of rows in insertion order; the
upsert keeps the position of the replaced row, matching both the SQL
UPDATE of part_001 and the Supabase upsert of server.js.
-/

namespace QuestBoard

/-- One entry of a participant slots blob: `{ available, note }` as the
client stores it under a slot key. -/
structure SlotInfo where
  available : Bool
  note : String
deriving DecidableEq

/-- The JSON slots blob of one availability row: a JavaScript object
mapping slot keys to marks, in property order. -/
abbrev Slots := List (String × SlotInfo)

/-- A row of the availability table (src/server.js, table `availability`;
src/unnamed/part_001 lines 88-100). -/
structure AvailRow where
  event_id : String
  participant_name : String
  participant_image : Option String
  user_id : Option Nat
  slots : Slots
deriving DecidableEq

/-- A row of the events table (src/server.js insert at lines 557-568;
`allow_comments` and `notify_comments` are nullable columns that the
insert does not set). -/
structure EventRec where
  id : String
  name : String
  description : String
  dates : List String
  start_hour : Int
  end_hour : Int
  creator_id : Option Nat
  image : Option String
  tags : List String
  completed : Bool
  allow_comments : Option Bool
  notify_comments : Option Bool
deriving DecidableEq

/-- The database state the routes read and write. -/
structure DB where
  events : List EventRec
  availability : List AvailRow
deriving DecidableEq

/-- Outcome of a route: `res.json(x)` or `res.status(n).json({error})`. -/
inductive ApiResult (α : Type) where
  | ok : α → ApiResult α
  | err : Nat → String → ApiResult α
deriving DecidableEq

/-- JavaScript `x || d` on a number-or-undefined value: `0` and absence
are falsy. -/
def jsOrInt (v : Option Int) (d : Int) : Int :=
  match v with
  | none => d
  | some x => if x = 0 then d else x

/-- JavaScript `x || null` on a string-or-undefined value: the empty
string and absence are falsy. -/
def jsOrNull (v : Option String) : Option String :=
  match v with
  | none => none
  | some s => if s = "" then none else some s

/-- Property read on a JavaScript object embedded as an association
list. -/
def jsGet {α : Type} (m : List (String × α)) (k : String) : Option α :=
  (m.find? (fun kv => kv.1 == k)).map (·.2)

/-- Property assignment on a JavaScript object: overwrite in place when
the key exists, otherwise append. -/
def jsSet {α : Type} (m : List (String × α)) (k : String) (v : α) : List (String × α) :=
  if m.any (fun kv => kv.1 == k) then
    m.map (fun kv => if kv.1 == k then (k, v) else kv)
  else
    m ++ [(k, v)]

/-- `SELECT ... FROM events WHERE id = ?` returning a single row. -/
def findEvent (db : DB) (id : String) : Option EventRec :=
  db.events.find? (fun e => e.id == id)

/-- Body of POST /api/events. Absent JSON fields are `none`; an absent
`dates` array is embedded as `[]` (both are rejected the same way). -/
structure CreateEventBody where
  name : String
  description : Option String
  dates : List String
  startHour : Option Int
  endHour : Option Int
  image : Option String
  tags : Option (List String)

/-- POST /api/events (src/server.js lines 546-577, src/unnamed/part_001
lines 385-404). `eventId` stands for the random token produced by
crypto.randomBytes(4). -/
def createEvent (db : DB) (user : Option Nat) (eventId : String) (b : CreateEventBody) :
    ApiResult String × DB :=
  if b.name = "" ∨ b.dates = [] then
    (.err 400 "Name and dates are required", db)
  else
    let e : EventRec :=
      { id := eventId
        name := b.name
        description := b.description.getD ""
        dates := b.dates
        start_hour := jsOrInt b.startHour 9
        end_hour := jsOrInt b.endHour 22
        creator_id := user
        image := jsOrNull b.image
        tags := b.tags.getD []
        completed := false
        allow_comments := none
        notify_comments := none }
    (.ok eventId, { db with events := db.events ++ [e] })

/-- The JSON body GET /api/events/:id responds with (src/server.js lines
610-627). -/
structure EventResponse where
  id : String
  name : String
  description : String
  dates : List String
  startHour : Int
  endHour : Int
  creatorId : Option Nat
  image : Option String
  tags : List String
  completed : Bool
  allowComments : Bool
  notifyComments : Bool
  participants : List String
  participantImages : List (String × String)
  availability : List (String × Slots)
deriving DecidableEq

/-- `SELECT * FROM availability WHERE event_id = ?`. -/
def eventRows (db : DB) (id : String) : List AvailRow :=
  db.availability.filter (fun r => r.event_id == id)

/-- GET /api/events/:id (src/server.js lines 579-632, src/unnamed/part_001
lines 407-454): fetch the event, then build `participants`,
`availability` and `participantImages` from the availability rows in
stored order. -/
def getEvent (db : DB) (id : String) : ApiResult EventResponse × DB :=
  match findEvent db id with
  | none => (.err 404 "Event not found", db)
  | some e =>
    let rows := eventRows db id
    (.ok
      { id := e.id
        name := e.name
        description := e.description
        dates := e.dates
        startHour := e.start_hour
        endHour := e.end_hour
        creatorId := e.creator_id
        image := e.image
        tags := e.tags
        completed := e.completed
        allowComments := e.allow_comments != some false
        notifyComments := e.notify_comments != some false
        participants := rows.map (·.participant_name)
        participantImages :=
          rows.foldl
            (fun m r =>
              match r.participant_image with
              | some img => jsSet m r.participant_name img
              | none => m)
            []
        availability := rows.foldl (fun m r => jsSet m r.participant_name r.slots) [] },
      db)

/-- Body of POST /api/events/:id/availability. -/
structure AvailBody where
  participantName : String
  participantImage : Option String
  slots : Slots

/-- Upsert on conflict key (event_id, participant_name): replace every
matching row in place, otherwise insert at the end (src/server.js lines
700-712; src/unnamed/part_001 lines 473-487 check then UPDATE or
INSERT, with the same effect). -/
def upsertAvail (rows : List AvailRow) (r : AvailRow) : List AvailRow :=
  if rows.any (fun q => q.event_id == r.event_id && q.participant_name == r.participant_name) then
    rows.map (fun q =>
      if q.event_id == r.event_id && q.participant_name == r.participant_name then r else q)
  else
    rows ++ [r]

/-- POST /api/events/:id/availability (src/server.js lines 678-721,
src/unnamed/part_001 lines 457-490). -/
def postAvailability (db : DB) (user : Option Nat) (id : String) (b : AvailBody) :
    ApiResult Bool × DB :=
  if b.participantName = "" then
    (.err 400 "Participant name required", db)
  else
    match findEvent db id with
    | none => (.err 404 "Event not found", db)
    | some _ =>
      let r : AvailRow :=
        { event_id := id
          participant_name := b.participantName
          participant_image := jsOrNull b.participantImage
          user_id := user
          slots := b.slots }
      (.ok true, { db with availability := upsertAvail db.availability r })

/-- Body of PUT /api/events/:id; every field may be absent. -/
structure UpdateEventBody where
  name : Option String
  description : Option String
  dates : Option (List String)
  startHour : Option Int
  endHour : Option Int
  image : Option String
  tags : Option (List String)
  completed : Option Bool
  allowComments : Option Bool
  notifyComments : Option Bool

/-- The column assignments of the Supabase update in PUT /api/events/:id
(src/server.js lines 655-669). A key whose value is undefined is dropped
from the update object, leaving that column unchanged; `||` defaults and
`!== false` follow the code. -/
def applyUpdate (e : EventRec) (b : UpdateEventBody) : EventRec :=
  { e with
    name := b.name.getD e.name
    description := b.description.getD ""
    dates := b.dates.getD e.dates
    start_hour := b.startHour.getD e.start_hour
    end_hour := b.endHour.getD e.end_hour
    image := jsOrNull b.image
    tags := b.tags.getD []
    completed := b.completed.getD false
    allow_comments := some (b.allowComments != some false)
    notify_comments := some (b.notifyComments != some false) }

/-- PUT /api/events/:id (src/server.js lines 635-676): requireAuth, then
404 when the event is missing, 403 when the caller is not the creator,
otherwise update the event row. -/
def putEvent (db : DB) (user : Option Nat) (id : String) (b : UpdateEventBody) :
    ApiResult Bool × DB :=
  match user with
  | none => (.err 401 "Authentication required", db)
  | some uid =>
    match findEvent db id with
    | none => (.err 404 "Event not found", db)
    | some e =>
      if e.creator_id == some uid then
        (.ok true,
          { db with events := db.events.map (fun ev => if ev.id == id then applyUpdate ev b else ev) })
      else
        (.err 403 "Only the creator can edit this event", db)

/-- DELETE /api/events/:id/availability/:participantName (src/server.js
lines 724-741, src/unnamed/part_002 lines 565-582): delete the rows whose
event_id and participant_name both match; `p` is the already-decoded
route parameter. -/
def deleteAvailability (db : DB) (user : Option Nat) (id : String) (p : String) :
    ApiResult Bool × DB :=
  (.ok true,
    { db with
      availability :=
        db.availability.filter (fun r => !(r.event_id == id && r.participant_name == p)) })

/-! ### Slot key scheme

Modelled from the spec: the slot key scheme (`makeSlotKey`, `parseSlotKey`)
is computed by the single-page client in public/index.html, which is not
under src/. Spec section 4.1: a key is a deterministic string combining an
ISO date string and an hour, e.g. "2024-06-01-14", and must round-trip to
its (date, hour) components. JavaScript strings are embedded as lists of
characters. -/

/-- A decimal digit as a character. -/
def digitChar (n : Nat) : Char := Char.ofNat (48 + n)

/-- The value of a decimal digit character. -/
def charToDigit (c : Char) : Nat := c.toNat - 48

/-- Decimal rendering of an hour 0-23, as JavaScript String(hour)
produces it: one digit below 10, two digits otherwise. -/
def hourChars (h : Nat) : List Char :=
  if h < 10 then [digitChar h] else [digitChar (h / 10), digitChar (h % 10)]

/-- Parse a one- or two-digit hour. -/
def parseHour (cs : List Char) : Option Nat :=
  match cs with
  | [a] => if a.isDigit then some (charToDigit a) else none
  | [a, b] => if a.isDigit && b.isDigit then some (10 * charToDigit a + charToDigit b) else none
  | _ => none

/-- An ISO date string "YYYY-MM-DD": ten characters, dashes at positions
4 and 7, digits elsewhere. -/
def isIsoDate (d : List Char) : Bool :=
  d.length == 10 && d.getD 4 ' ' == '-' && d.getD 7 ' ' == '-' &&
    (List.range 10).all (fun i => i == 4 || i == 7 || (d.getD i ' ').isDigit)

/-- Modelled from the spec: `makeSlotKey(date, hour)` joins the ISO date
and the hour with a dash (spec section 4.1, example key "2024-06-01-14"). -/
def makeSlotKey (date : List Char) (hour : Nat) : List Char :=
  date ++ '-' :: hourChars hour

/-- Modelled from the spec: `parseSlotKey(key)` recovers the (date, hour)
components: the first ten characters must form an ISO date, followed by a
dash and a parseable hour. -/
def parseSlotKey (key : List Char) : Option (List Char × Nat) :=
  match key.drop 10 with
  | '-' :: rest =>
    if isIsoDate (key.take 10) then
      (parseHour rest).map (fun h => (key.take 10, h))
    else none
  | _ => none

/-! ### Availability aggregator

Modelled from the spec: the heat-map aggregation runs in the client
(public/index.html), not under src/. Spec section 4.2: given a mapping
from participant name to marked slots, produce per slot key the count of
available participants, the participant names in submission order, and
the (participant, note) pairs with non-empty notes. It is written here
the way a JavaScript implementation folds over the per-participant rows,
accumulating a slot-keyed object. -/

/-- Per-slot aggregation record: heat-map count, participant names in
submission order, and non-empty notes. -/
structure SlotAgg where
  count : Nat
  participants : List String
  notes : List (String × String)
deriving DecidableEq

/-- Extend the aggregate at one slot with one more available participant
and an optional note. -/
def bump (o : Option SlotAgg) (p : String) (n : Option String) : SlotAgg :=
  match o with
  | none =>
    { count := 1
      participants := [p]
      notes := match n with | some s => [(p, s)] | none => [] }
  | some a =>
    { count := a.count + 1
      participants := a.participants ++ [p]
      notes := a.notes ++ (match n with | some s => [(p, s)] | none => []) }

/-- Record in the accumulator that participant `p` is available at slot
`k`, with note `note` (empty means no note). -/
def addMark (m : List (String × SlotAgg)) (k p note : String) : List (String × SlotAgg) :=
  jsSet m k (bump (jsGet m k) p (if note = "" then none else some note))

/-- Fold one participant slots blob into the accumulator: only entries
with `available = true` contribute. -/
def addParticipant (m : List (String × SlotAgg)) (p : String) (sl : Slots) :
    List (String × SlotAgg) :=
  sl.foldl (fun m e => if e.2.available then addMark m e.1 p e.2.note else m) m

/-- Modelled from the spec: the availability aggregator over a snapshot
of (participant, slots) pairs in submission order. -/
def aggregate (snap : List (String × Slots)) : List (String × SlotAgg) :=
  snap.foldl (fun m ps => addParticipant m ps.1 ps.2) []

/-- Does this slots blob mark slot `k` available? -/
def marksKey (sl : Slots) (k : String) : Bool :=
  sl.any (fun e => e.1 == k && e.2.available)

/-- The non-empty note this slots blob attaches to its available mark at
slot `k`, when any. -/
def noteAt (sl : Slots) (k : String) : Option String :=
  match sl.find? (fun e => e.1 == k && e.2.available) with
  | some e => if e.2.note = "" then none else some e.2.note
  | none => none

/-- The snapshot entries that mark slot `k` available, in submission
order. -/
def markers (snap : List (String × Slots)) (k : String) : List (String × Slots) :=
  snap.filter (fun ps => marksKey ps.2 k)

/-! ### Lemmas about the JavaScript object embedding -/

theorem jsGet_nil {α : Type} (k : String) : jsGet ([] : List (String × α)) k = none := rfl

theorem jsGet_cons {α : Type} (a : String × α) (m : List (String × α)) (k : String) :
    jsGet (a :: m) k = if a.1 == k then some a.2 else jsGet m k := by
  by_cases h : a.1 == k <;> simp [jsGet, List.find?_cons, h]

theorem any_key_eq_isSome {α : Type} (m : List (String × α)) (k : String) :
    m.any (fun kv => kv.1 == k) = (jsGet m k).isSome := by
  induction m with
  | nil => rfl
  | cons a t ih => by_cases h : a.1 == k <;> simp [jsGet_cons, h, ih]

theorem jsGet_append_some {α : Type} {m : List (String × α)} {k : String} {v : α}
    (m' : List (String × α)) (h : jsGet m k = some v) : jsGet (m ++ m') k = some v := by
  induction m with
  | nil => simp [jsGet_nil] at h
  | cons a t ih =>
    by_cases ha : a.1 == k <;> simp [jsGet_cons, ha] at h ⊢
    · exact h
    · exact ih h

theorem jsGet_append_none {α : Type} {m : List (String × α)} {k : String}
    (m' : List (String × α)) (h : jsGet m k = none) : jsGet (m ++ m') k = jsGet m' k := by
  induction m with
  | nil => simp [jsGet_nil]
  | cons a t ih =>
    by_cases ha : a.1 == k <;> simp [jsGet_cons, ha] at h ⊢
    exact ih h

theorem jsGet_map_overwrite {α : Type} (m : List (String × α)) (k : String) (v : α) :
    jsGet (m.map (fun kv => if kv.1 == k then (k, v) else kv)) k
      = if (jsGet m k).isSome then some v else none := by
  induction m with
  | nil => simp [jsGet_nil]
  | cons a t ih =>
    obtain ⟨ak, av⟩ := a
    by_cases h : ak = k
    · simp [jsGet_cons, h]
    · simp [jsGet_cons, h]
      simpa using ih

theorem jsGet_map_overwrite_ne {α : Type} (m : List (String × α)) {k' k : String} (v : α)
    (h : k' ≠ k) :
    jsGet (m.map (fun kv => if kv.1 == k' then (k', v) else kv)) k = jsGet m k := by
  induction m with
  | nil => simp [jsGet_nil]
  | cons a t ih =>
    obtain ⟨ak, av⟩ := a
    by_cases ha : ak = k'
    · simp [jsGet_cons, ha, h]
      simpa using ih
    · by_cases hk : ak = k
      · simp [jsGet_cons, ha, hk, Ne.symm h]
      · simp [jsGet_cons, ha, hk]
        simpa using ih

theorem jsGet_jsSet_self {α : Type} (m : List (String × α)) (k : String) (v : α) :
    jsGet (jsSet m k v) k = some v := by
  unfold jsSet
  by_cases h : m.any (fun kv => kv.1 == k)
  · rw [if_pos h, jsGet_map_overwrite]
    rw [any_key_eq_isSome] at h
    simp [h]
  · rw [if_neg h]
    rw [any_key_eq_isSome] at h
    have hn : jsGet m k = none := by
      cases he : jsGet m k with
      | none => rfl
      | some w => rw [he] at h; simp at h
    rw [jsGet_append_none _ hn]
    simp [jsGet_cons]

theorem jsGet_jsSet_ne {α : Type} (m : List (String × α)) {k' k : String} (v : α)
    (h : k' ≠ k) : jsGet (jsSet m k' v) k = jsGet m k := by
  unfold jsSet
  by_cases ha : m.any (fun kv => kv.1 == k')
  · rw [if_pos ha, jsGet_map_overwrite_ne _ _ h]
  · rw [if_neg ha]
    cases he : jsGet m k with
    | none =>
      rw [jsGet_append_none _ he]
      simp [jsGet_cons, jsGet_nil, h]
    | some w => rw [jsGet_append_some _ he]

/-! ### Lemmas about the availability upsert -/

theorem upsert_matching (rows : List AvailRow) (r : AvailRow) :
    ∀ q ∈ upsertAvail rows r,
      q.event_id = r.event_id → q.participant_name = r.participant_name → q = r := by
  intro q hq h1 h2
  unfold upsertAvail at hq
  by_cases h : rows.any (fun q => q.event_id == r.event_id && q.participant_name == r.participant_name)
  · rw [if_pos h] at hq
    obtain ⟨q0, hq0, hEq⟩ := List.mem_map.mp hq
    by_cases hm : (q0.event_id == r.event_id && q0.participant_name == r.participant_name) = true
    · rw [if_pos hm] at hEq
      exact hEq.symm
    · rw [if_neg hm] at hEq
      subst hEq
      simp [h1, h2] at hm
  · rw [if_neg h] at hq
    rcases List.mem_append.mp hq with hmem | hmem
    · exfalso
      apply h
      exact List.any_eq_true.mpr ⟨q, hmem, by simp [h1, h2]⟩
    · simpa using hmem

theorem upsert_self_mem (rows : List AvailRow) (r : AvailRow) : r ∈ upsertAvail rows r := by
  unfold upsertAvail
  by_cases h : rows.any (fun q => q.event_id == r.event_id && q.participant_name == r.participant_name)
  · rw [if_pos h]
    obtain ⟨q0, hq0, hm⟩ := List.any_eq_true.mp h
    exact List.mem_map.mpr ⟨q0, hq0, by rw [if_pos hm]⟩
  · rw [if_neg h]
    simp

theorem events_post (db : DB) (user : Option Nat) (id : String) (b : AvailBody) :
    (postAvailability db user id b).2.events = db.events := by
  unfold postAvailability
  by_cases h : b.participantName = ""
  · rw [if_pos h]
  · rw [if_neg h]
    cases findEvent db id <;> rfl

/-- The availability object GET builds assigns `some v` to key `p`
whenever every row named `p` carries the slots blob `v` and at least one
row is named `p`. -/
theorem jsGet_fold_slots (p : String) (v : Slots) :
    ∀ (rows : List AvailRow) (m : List (String × Slots)),
      (∀ q ∈ rows, q.participant_name = p → q.slots = v) →
      jsGet (rows.foldl (fun m r => jsSet m r.participant_name r.slots) m) p
        = if rows.any (fun q => q.participant_name == p) then some v else jsGet m p := by
  intro rows
  induction rows with
  | nil => intro m _; simp
  | cons q t ih =>
    intro m h
    simp only [List.foldl_cons, List.any_cons]
    rw [ih _ (fun q' hq' => h q' (List.mem_cons_of_mem _ hq'))]
    by_cases hq : q.participant_name = p
    · have hs : q.slots = v := h q (List.mem_cons_self _ _) hq
      by_cases ht : t.any (fun q => q.participant_name == p)
      · simp [ht, hq]
      · simp [ht, hq, hs, jsGet_jsSet_self]
    · have hne : jsGet (jsSet m q.participant_name q.slots) p = jsGet m p :=
        jsGet_jsSet_ne m q.slots hq
      by_cases ht : t.any (fun q => q.participant_name == p)
      · simp [ht, hq]
      · simp [ht, hq, hne]

/-- After a successful availability submission for participant `p` with
slots `v`, reading the event reports exactly `v` for `p`. -/
theorem post_then_get (db : DB) (user : Option Nat) (id : String) (b : AvailBody)
    (e : EventRec) (hev : findEvent db id = some e) (hname : b.participantName ≠ "") :
    (postAvailability db user id b).1 = .ok true ∧
    ∃ resp, (getEvent (postAvailability db user id b).2 id).1 = ApiResult.ok resp ∧
      jsGet resp.availability b.participantName = some b.slots := by
  have hpost :
      postAvailability db user id b =
        (.ok true,
          { db with
            availability :=
              upsertAvail db.availability
                { event_id := id
                  participant_name := b.participantName
                  participant_image := jsOrNull b.participantImage
                  user_id := user
                  slots := b.slots } }) := by
    unfold postAvailability
    rw [if_neg hname, hev]
  set r : AvailRow :=
    { event_id := id
      participant_name := b.participantName
      participant_image := jsOrNull b.participantImage
      user_id := user
      slots := b.slots } with hr
  set db' : DB := { db with availability := upsertAvail db.availability r } with hdb'
  have hev' : findEvent db' id = some e := hev
  refine ⟨by rw [hpost], ?_⟩
  rw [hpost]
  show ∃ resp, (getEvent db' id).1 = ApiResult.ok resp ∧ _
  unfold getEvent
  rw [hev']
  refine ⟨_, rfl, ?_⟩
  show jsGet ((eventRows db' id).foldl (fun m r => jsSet m r.participant_name r.slots) [])
        b.participantName = some b.slots
  have hall : ∀ q ∈ eventRows db' id, q.participant_name = b.participantName →
      q.slots = b.slots := by
    intro q hq hname'
    have hmem := (List.mem_filter.mp hq).1
    have hid : q.event_id = id := by
      have := (List.mem_filter.mp hq).2
      simpa using this
    have : q = r := upsert_matching db.availability r q hmem hid hname'
    rw [this]
  have hany : (eventRows db' id).any (fun q => q.participant_name == b.participantName) = true := by
    refine List.any_eq_true.mpr ⟨r, ?_, by simp⟩
    refine List.mem_filter.mpr ⟨upsert_self_mem db.availability r, by simp⟩
  rw [jsGet_fold_slots b.participantName b.slots (eventRows db' id) [] hall, if_pos hany]

/-- Shape of a successful event creation. -/
theorem createEvent_success (db : DB) (user : Option Nat) (eid : String)
    (b : CreateEventBody) (hname : b.name ≠ "") (hdates : b.dates ≠ []) :
    createEvent db user eid b =
      (.ok eid,
        { db with
          events := db.events ++
            [⟨eid, b.name, b.description.getD "", b.dates, jsOrInt b.startHour 9,
              jsOrInt b.endHour 22, user, jsOrNull b.image, b.tags.getD [], false, none,
              none⟩] }) := by
  unfold createEvent
  rw [if_neg (not_or.mpr ⟨hname, hdates⟩)]

/-- Shape of a successful availability submission. -/
theorem postAvailability_success (db : DB) (user : Option Nat) (id : String) (b : AvailBody)
    (e : EventRec) (hev : findEvent db id = some e) (hname : b.participantName ≠ "") :
    postAvailability db user id b =
      (.ok true,
        { db with
          availability :=
            upsertAvail db.availability
              ⟨id, b.participantName, jsOrNull b.participantImage, user, b.slots⟩ }) := by
  unfold postAvailability
  rw [if_neg hname, hev]

/-! ### Sample data for witnesses -/

/-- A stored event used by witnesses. -/
def sampleEvent : EventRec :=
  { id := "e1"
    name := "Session Zero"
    description := ""
    dates := ["2024-06-01", "2024-06-02"]
    start_hour := 18
    end_hour := 20
    creator_id := some 7
    image := none
    tags := []
    completed := false
    allow_comments := none
    notify_comments := none }

/-- A database holding `sampleEvent` and no availability. -/
def sampleDB : DB := { events := [sampleEvent], availability := [] }

/-- A database with two availability rows whose insertion order is not
alphabetical. -/
def sampleDB2 : DB :=
  { events := [sampleEvent]
    availability :=
      [{ event_id := "e1", participant_name := "Zed", participant_image := none,
         user_id := none, slots := [] },
       { event_id := "e1", participant_name := "Ann", participant_image := none,
         user_id := none, slots := [] }] }

/-- The response GET /api/events/e1 produces on `sampleDB2`. -/
def sampleResp : EventResponse :=
  { id := "e1"
    name := "Session Zero"
    description := ""
    dates := ["2024-06-01", "2024-06-02"]
    startHour := 18
    endHour := 20
    creatorId := some 7
    image := none
    tags := []
    completed := false
    allowComments := true
    notifyComments := true
    participants := ["Zed", "Ann"]
    participantImages := []
    availability := [("Zed", []), ("Ann", [])] }

/-- An update body with every field absent. -/
def emptyUpdateBody : UpdateEventBody :=
  { name := none, description := none, dates := none, startHour := none, endHour := none,
    image := none, tags := none, completed := none, allowComments := none,
    notifyComments := none }

/-- First availability submission used by the C1 witness. -/
def sampleS1 : Slots :=
  [("2024-06-01-18", { available := true, note := "remote" }),
   ("2024-06-01-19", { available := true, note := "" })]

/-- Second availability submission used by the C1 witness; it drops both
slots of `sampleS1`. -/
def sampleS2 : Slots := [("2024-06-02-18", { available := true, note := "" })]

/-! ### Claim theorems -/

/-- C1: full-replace law. For every event, participant name, and pair of
availability submissions, after submitting slot set `S2` for a participant
who previously submitted `S1`, a read of the event reflects exactly `S2`
(hence no slot of `S1 \ S2`) as that participant availability, regardless
of `S1`. -/
theorem availability_full_replace (db : DB) (u1 u2 : Option Nat) (id p : String)
    (img1 img2 : Option String) (S1 S2 : Slots) (e : EventRec)
    (hev : findEvent db id = some e) (hp : p ≠ "") :
    ∃ resp,
      (getEvent
          (postAvailability (postAvailability db u1 id ⟨p, img1, S1⟩).2 u2 id
            ⟨p, img2, S2⟩).2 id).1 = ApiResult.ok resp ∧
        jsGet resp.availability p = some S2 := by
  have h1 : findEvent (postAvailability db u1 id ⟨p, img1, S1⟩).2 id = some e := by
    unfold findEvent
    rw [events_post]
    simpa [findEvent] using hev
  exact (post_then_get _ u2 id ⟨p, img2, S2⟩ e h1 hp).2

/-- Witness for C1 at a concrete event and two concrete submissions. -/
theorem availability_full_replace_witness :
    ∃ resp,
      (getEvent
          (postAvailability (postAvailability sampleDB none "e1" ⟨"Aria", none, sampleS1⟩).2
            none "e1" ⟨"Aria", none, sampleS2⟩).2 "e1").1 = ApiResult.ok resp ∧
        jsGet resp.availability "Aria" = some sampleS2 :=
  availability_full_replace sampleDB none none "e1" "Aria" none none sampleS1 sampleS2
    sampleEvent (by decide) (by decide)

/-- C4: reading an event is deterministic: the handler leaves the store
unchanged, a repeated read returns the identical result, and the
participants list is the stored availability rows in submission order,
never re-sorted. -/
theorem get_event_deterministic (db : DB) (id : String) :
    (getEvent db id).2 = db ∧
    getEvent (getEvent db id).2 id = getEvent db id ∧
    ∀ resp, (getEvent db id).1 = ApiResult.ok resp →
      resp.participants = (eventRows db id).map (·.participant_name) := by
  have hsnd : (getEvent db id).2 = db := by
    unfold getEvent
    cases findEvent db id <;> rfl
  refine ⟨hsnd, by rw [hsnd], ?_⟩
  intro resp hresp
  unfold getEvent at hresp
  cases hev : findEvent db id with
  | none => rw [hev] at hresp; exact absurd hresp (by simp)
  | some e =>
    rw [hev] at hresp
    simp only [ApiResult.ok.injEq] at hresp
    rw [← hresp]

/-- Witness for C4: on `sampleDB2` the participants come back in
insertion order "Zed", "Ann", not alphabetically. -/
theorem get_event_deterministic_witness :
    sampleResp.participants = (eventRows sampleDB2 "e1").map (·.participant_name) :=
  (get_event_deterministic sampleDB2 "e1").2.2 sampleResp (by decide)

/-- C7: in the accounts variant, a PUT /api/events/:id by an
authenticated user who is not the creator is rejected with 403 and leaves
the store, hence every field of the event, unchanged. -/
theorem put_event_creator_only (db : DB) (uid : Nat) (id : String) (b : UpdateEventBody)
    (e : EventRec) (hev : findEvent db id = some e) (hne : e.creator_id ≠ some uid) :
    putEvent db (some uid) id b = (.err 403 "Only the creator can edit this event", db) := by
  have hfalse : (e.creator_id == some uid) = false := by simpa using hne
  simp [putEvent, hev, hfalse]

/-- Witness for C7: user 8 cannot edit the event created by user 7. -/
theorem put_event_creator_only_witness :
    putEvent sampleDB (some 8) "e1" emptyUpdateBody =
      (.err 403 "Only the creator can edit this event", sampleDB) :=
  put_event_creator_only sampleDB 8 "e1" emptyUpdateBody sampleEvent (by decide) (by decide)

/-- C8: submitting availability for a nonexistent event id returns 404
and writes nothing: the store after the request is the store before. -/
theorem post_availability_missing_event (db : DB) (user : Option Nat) (id : String)
    (b : AvailBody) (hname : b.participantName ≠ "") (hev : findEvent db id = none) :
    postAvailability db user id b = (.err 404 "Event not found", db) := by
  unfold postAvailability
  rw [if_neg hname, hev]

/-- Witness for C8 on an empty store. -/
theorem post_availability_missing_event_witness :
    postAvailability ⟨[], []⟩ none "e1" ⟨"Aria", none, sampleS1⟩ =
      (.err 404 "Event not found", ⟨[], []⟩) :=
  post_availability_missing_event ⟨[], []⟩ none "e1" ⟨"Aria", none, sampleS1⟩
    (by decide) rfl

/-- C10: deleting one participant availability is frame-preserving: the
request succeeds, event metadata is untouched, and a row survives exactly
when it is a stored row not belonging to that (event, participant)
pair. -/
theorem delete_availability_frame (db : DB) (user : Option Nat) (id p : String) :
    (deleteAvailability db user id p).1 = .ok true ∧
    (deleteAvailability db user id p).2.events = db.events ∧
    ∀ r : AvailRow,
      r ∈ (deleteAvailability db user id p).2.availability ↔
        r ∈ db.availability ∧ ¬(r.event_id = id ∧ r.participant_name = p) := by
  refine ⟨rfl, rfl, ?_⟩
  intro r
  show r ∈ db.availability.filter _ ↔ _
  rw [List.mem_filter]
  simp
  tauto

/-- Creation request with out-of-range hour bounds, used against C5. -/
def badHoursBody : CreateEventBody :=
  { name := "Raid Night", description := none, dates := ["2024-06-01"],
    startHour := some 25, endHour := some 3, image := none, tags := none }

/-- Counterexample to C5: POST /api/events accepts startHour 25 and
endHour 3 and stores them verbatim, so a stored event can violate
0 ≤ startHour < endHour ≤ 23. -/
theorem event_hours_unchecked_cex :
    ∃ e ∈ (createEvent (DB.mk [] []) none "e5" badHoursBody).2.events,
      e.start_hour = 25 ∧ e.end_hour = 3 ∧
        ¬(0 ≤ e.start_hour ∧ e.start_hour < e.end_hour ∧ e.end_hour ≤ 23) := by
  decide

/-- C5 (amended): event creation stores the request hour bounds after
falsy-defaulting (9 and 22) without any range validation, so the stored
bounds satisfy 0 ≤ startHour < endHour ≤ 23 exactly when the defaulted
request values do. -/
theorem event_hours_stored (db : DB) (user : Option Nat) (eid : String)
    (b : CreateEventBody) (hname : b.name ≠ "") (hdates : b.dates ≠ []) :
    ∃ e : EventRec, (createEvent db user eid b).2.events = db.events ++ [e] ∧
      e.start_hour = jsOrInt b.startHour 9 ∧ e.end_hour = jsOrInt b.endHour 22 := by
  refine ⟨⟨eid, b.name, b.description.getD "", b.dates, jsOrInt b.startHour 9,
    jsOrInt b.endHour 22, user, jsOrNull b.image, b.tags.getD [], false, none, none⟩,
    ?_, rfl, rfl⟩
  rw [createEvent_success db user eid b hname hdates]

/-- Witness for the amended C5. -/
theorem event_hours_stored_witness :
    ∃ e : EventRec,
      (createEvent (DB.mk [] []) none "e5" badHoursBody).2.events =
        (DB.mk [] []).events ++ [e] ∧
      e.start_hour = jsOrInt badHoursBody.startHour 9 ∧
      e.end_hour = jsOrInt badHoursBody.endHour 22 :=
  event_hours_stored (DB.mk [] []) none "e5" badHoursBody (by decide) (by decide)

/-- A slots blob whose only key fails to parse as (date, hour). -/
def badSlots : Slots := [("not-a-slot-key", { available := true, note := "" })]

/-- Counterexample to C6: a submission whose slot key does not parse is
accepted with success and the malformed key is stored, not rejected. -/
theorem malformed_slot_key_accepted_cex :
    parseSlotKey ("not-a-slot-key".data) = none ∧
    (postAvailability sampleDB none "e1" ⟨"Aria", none, badSlots⟩).1 = ApiResult.ok true ∧
    ∃ r ∈ (postAvailability sampleDB none "e1" ⟨"Aria", none, badSlots⟩).2.availability,
      r.participant_name = "Aria" ∧ r.slots = badSlots := by
  decide

/-- C6 (amended): availability ingestion performs no slot-key validation:
any submission for an existing event, including one whose key fails to
parse into a (date, hour) pair, is accepted and its slots blob is stored
verbatim for that participant. -/
theorem malformed_slot_key_stored (db : DB) (user : Option Nat) (id : String) (b : AvailBody)
    (e : EventRec) (k : String) (i : SlotInfo)
    (hev : findEvent db id = some e) (hname : b.participantName ≠ "")
    (hk : (k, i) ∈ b.slots) (hbad : parseSlotKey k.data = none) :
    (postAvailability db user id b).1 = ApiResult.ok true ∧
    ∃ r ∈ (postAvailability db user id b).2.availability,
      r.event_id = id ∧ r.participant_name = b.participantName ∧ r.slots = b.slots := by
  rw [postAvailability_success db user id b e hev hname]
  exact ⟨rfl, ⟨id, b.participantName, jsOrNull b.participantImage, user, b.slots⟩,
    upsert_self_mem _ _, rfl, rfl, rfl⟩

/-- Witness for the amended C6. -/
theorem malformed_slot_key_stored_witness :
    (postAvailability sampleDB none "e1" ⟨"Aria", none, badSlots⟩).1 = ApiResult.ok true ∧
    ∃ r ∈ (postAvailability sampleDB none "e1" ⟨"Aria", none, badSlots⟩).2.availability,
      r.event_id = "e1" ∧ r.participant_name = "Aria" ∧ r.slots = badSlots :=
  malformed_slot_key_stored sampleDB none "e1" ⟨"Aria", none, badSlots⟩ sampleEvent
    "not-a-slot-key" ⟨true, ""⟩ (by decide) (by decide) (by decide) (by decide)

/-- C9: a falsy startHour (0 or omitted) is stored as 9 and a falsy
endHour as 22, so no event is ever created with a midnight (hour 0)
start. -/
theorem falsy_hours_default (db : DB) (user : Option Nat) (eid : String)
    (b : CreateEventBody) (hname : b.name ≠ "") (hdates : b.dates ≠ []) :
    ∃ e : EventRec, (createEvent db user eid b).2.events = db.events ++ [e] ∧
      ((b.startHour = none ∨ b.startHour = some 0) → e.start_hour = 9) ∧
      ((b.endHour = none ∨ b.endHour = some 0) → e.end_hour = 22) ∧
      e.start_hour ≠ 0 := by
  refine ⟨⟨eid, b.name, b.description.getD "", b.dates, jsOrInt b.startHour 9,
    jsOrInt b.endHour 22, user, jsOrNull b.image, b.tags.getD [], false, none, none⟩,
    ?_, ?_, ?_, ?_⟩
  · rw [createEvent_success db user eid b hname hdates]
  · rintro (h | h) <;> simp [jsOrInt, h]
  · rintro (h | h) <;> simp [jsOrInt, h]
  · show jsOrInt b.startHour 9 ≠ 0
    cases hs : b.startHour with
    | none => simp [jsOrInt]
    | some x =>
      by_cases hx : x = 0 <;> simp [jsOrInt, hx]

/-- Creation request with a midnight start request, used by the C9
witness. -/
def midnightBody : CreateEventBody :=
  { name := "Dawn Patrol", description := none, dates := ["2024-07-01"],
    startHour := some 0, endHour := none, image := none, tags := none }

/-- Witness for C9: requesting startHour 0 with endHour omitted stores
hours 9 and 22. -/
theorem falsy_hours_default_witness :
    ∃ e : EventRec, (createEvent (DB.mk [] []) none "e9" midnightBody).2.events = [e] ∧
      e.start_hour = 9 ∧ e.end_hour = 22 := by
  obtain ⟨e, he, h1, h2, _⟩ :=
    falsy_hours_default (DB.mk [] []) none "e9" midnightBody (by decide) (by decide)
  exact ⟨e, by simpa using he, h1 (Or.inr rfl), h2 (Or.inl rfl)⟩

/-! ### Slot key scheme: round trip and injectivity -/

theorem parseHour_hourChars : ∀ h : Nat, h < 24 → parseHour (hourChars h) = some h := by
  decide

theorem length_of_isIsoDate {d : List Char} (h : isIsoDate d = true) : d.length = 10 := by
  unfold isIsoDate at h
  simp only [Bool.and_eq_true, beq_iff_eq] at h
  exact h.1.1.1

theorem parseSlotKey_makeSlotKey (d : List Char) (h : Nat) (hd : isIsoDate d = true)
    (hh : h < 24) : parseSlotKey (makeSlotKey d h) = some (d, h) := by
  have hlen : d.length = 10 := length_of_isIsoDate hd
  unfold makeSlotKey parseSlotKey
  have htake : (d ++ '-' :: hourChars h).take 10 = d := List.take_left' hlen
  have hdrop : (d ++ '-' :: hourChars h).drop 10 = '-' :: hourChars h := List.drop_left' hlen
  rw [hdrop]
  simp [htake, hd, parseHour_hourChars h hh]

/-- C2: the slot key scheme is invertible on valid inputs, and therefore
injective: distinct (date, hour) pairs never produce the same key. -/
theorem slot_key_roundtrip_injective (d1 d2 : List Char) (h1 h2 : Nat)
    (hd1 : isIsoDate d1 = true) (hh1 : h1 < 24) (hd2 : isIsoDate d2 = true) (hh2 : h2 < 24) :
    parseSlotKey (makeSlotKey d1 h1) = some (d1, h1) ∧
    (makeSlotKey d1 h1 = makeSlotKey d2 h2 → d1 = d2 ∧ h1 = h2) := by
  refine ⟨parseSlotKey_makeSlotKey d1 h1 hd1 hh1, fun heq => ?_⟩
  have h2eq := parseSlotKey_makeSlotKey d2 h2 hd2 hh2
  rw [← heq, parseSlotKey_makeSlotKey d1 h1 hd1 hh1] at h2eq
  simp only [Option.some.injEq, Prod.mk.injEq] at h2eq
  exact ⟨h2eq.1, h2eq.2⟩

/-- Witness for C2 at the concrete keys "2024-06-01-14" and
"2024-06-02-9". -/
theorem slot_key_roundtrip_injective_witness :
    parseSlotKey (makeSlotKey ("2024-06-01".data) 14) = some ("2024-06-01".data, 14) ∧
    (makeSlotKey ("2024-06-01".data) 14 = makeSlotKey ("2024-06-02".data) 9 →
      "2024-06-01".data = "2024-06-02".data ∧ 14 = 9) :=
  slot_key_roundtrip_injective ("2024-06-01".data) ("2024-06-02".data) 14 9
    (by decide) (by decide) (by decide) (by decide)

/-! ### Aggregator lemmas -/

theorem jsGet_addMark_self (m : List (String × SlotAgg)) (k p note) :
    jsGet (addMark m k p note) k
      = some (bump (jsGet m k) p (if note = "" then none else some note)) :=
  jsGet_jsSet_self m k _

theorem jsGet_addMark_ne (m : List (String × SlotAgg)) {k' k : String} (p note)
    (h : k' ≠ k) : jsGet (addMark m k' p note) k = jsGet m k :=
  jsGet_jsSet_ne m _ h

theorem addParticipant_notkey (p : String) (k : String) :
    ∀ (sl : Slots) (m : List (String × SlotAgg)), (∀ e ∈ sl, e.1 ≠ k) →
      jsGet (addParticipant m p sl) k = jsGet m k := by
  intro sl
  induction sl with
  | nil => intro m _; rfl
  | cons e t ih =>
    intro m h
    have he : e.1 ≠ k := h e (List.mem_cons_self _ _)
    have ht : ∀ e' ∈ t, e'.1 ≠ k := fun e' he' => h e' (List.mem_cons_of_mem _ he')
    unfold addParticipant
    rw [List.foldl_cons]
    by_cases hav : e.2.available
    · rw [if_pos hav]
      rw [show (t.foldl (fun m e => if e.2.available then addMark m e.1 p e.2.note else m)
          (addMark m e.1 p e.2.note)) = addParticipant (addMark m e.1 p e.2.note) p t from rfl]
      rw [ih _ ht, jsGet_addMark_ne m p e.2.note he]
    · rw [if_neg hav]
      exact ih m ht

theorem marksKey_false_of_notkey (sl : Slots) (k : String) (h : ∀ e ∈ sl, e.1 ≠ k) :
    marksKey sl k = false := by
  unfold marksKey
  rw [List.any_eq_false]
  intro e he
  simp [h e he]

theorem addParticipant_jsGet (p : String) (k : String) :
    ∀ (sl : Slots) (m : List (String × SlotAgg)), (sl.map Prod.fst).Nodup →
      jsGet (addParticipant m p sl) k =
        if marksKey sl k then some (bump (jsGet m k) p (noteAt sl k)) else jsGet m k := by
  intro sl
  induction sl with
  | nil => intro m _; simp [addParticipant, marksKey, noteAt]
  | cons e t ih =>
    intro m hnd
    rw [List.map_cons, List.nodup_cons] at hnd
    obtain ⟨hnd1, hnd2⟩ := hnd
    rw [show addParticipant m p (e :: t) =
      addParticipant (if e.2.available = true then addMark m e.1 p e.2.note else m) p t from rfl]
    by_cases hav : e.2.available
    · rw [if_pos hav]
      by_cases hke : e.1 = k
      · subst hke
        have htno : ∀ e' ∈ t, e'.1 ≠ e.1 := by
          intro e' he' hc
          apply hnd1
          rw [← hc]
          exact List.mem_map_of_mem Prod.fst he'
        rw [addParticipant_notkey p e.1 t _ htno]
        rw [jsGet_addMark_self m e.1 p e.2.note]
        have hmark : marksKey (e :: t) e.1 = true := by
          unfold marksKey
          rw [List.any_cons]
          simp [hav]
        rw [if_pos hmark]
        have hnote : noteAt (e :: t) e.1 = if e.2.note = "" then none else some e.2.note := by
          unfold noteAt
          rw [List.find?_cons_of_pos t (by simp [hav])]
        rw [hnote]
      · rw [ih _ hnd2, jsGet_addMark_ne m p e.2.note hke]
        have hmark : marksKey (e :: t) k = marksKey t k := by
          unfold marksKey
          rw [List.any_cons]
          simp [hke]
        have hnote : noteAt (e :: t) k = noteAt t k := by
          unfold noteAt
          rw [List.find?_cons_of_neg t (by simp [hke])]
        rw [hmark, hnote]
    · rw [if_neg hav]
      rw [ih m hnd2]
      have hmark : marksKey (e :: t) k = marksKey t k := by
        unfold marksKey
        rw [List.any_cons]
        simp [hav]
      have hnote : noteAt (e :: t) k = noteAt t k := by
        unfold noteAt
        rw [List.find?_cons_of_neg t (by simp [hav])]
      rw [hmark, hnote]

theorem aggregate_fold (k : String) :
    ∀ (snap : List (String × Slots)) (m : List (String × SlotAgg)),
      (∀ ps ∈ snap, (ps.2.map Prod.fst).Nodup) →
      jsGet (snap.foldl (fun m ps => addParticipant m ps.1 ps.2) m) k =
        (markers snap k).foldl (fun o ps => some (bump o ps.1 (noteAt ps.2 k))) (jsGet m k) := by
  intro snap
  induction snap with
  | nil => intro m _; simp [markers]
  | cons ps t ih =>
    intro m h
    have hps := h ps (List.mem_cons_self _ _)
    have ht : ∀ q ∈ t, (q.2.map Prod.fst).Nodup := fun q hq => h q (List.mem_cons_of_mem _ hq)
    rw [List.foldl_cons]
    rw [ih _ ht]
    by_cases hm : marksKey ps.2 k
    · have hmarkers : markers (ps :: t) k = ps :: markers t k := by
        simp [markers, List.filter_cons, hm]
      rw [hmarkers, List.foldl_cons, addParticipant_jsGet ps.1 k ps.2 m hps, if_pos hm]
    · have hmarkers : markers (ps :: t) k = markers t k := by
        simp [markers, List.filter_cons, hm]
      rw [hmarkers, addParticipant_jsGet ps.1 k ps.2 m hps, if_neg hm]

theorem bump_fold_some (k : String) :
    ∀ (ms : List (String × Slots)) (a : SlotAgg),
      ms.foldl (fun o ps => some (bump o ps.1 (noteAt ps.2 k))) (some a) =
        some { count := a.count + ms.length
               participants := a.participants ++ ms.map Prod.fst
               notes := a.notes ++
                 ms.filterMap (fun ps => (noteAt ps.2 k).map (fun n => (ps.1, n))) } := by
  intro ms
  induction ms with
  | nil => intro a; simp
  | cons ps t ih =>
    intro a
    rw [List.foldl_cons]
    cases hn : noteAt ps.2 k with
    | none =>
      rw [show bump (some a) ps.1 none =
        { count := a.count + 1, participants := a.participants ++ [ps.1],
          notes := a.notes ++ [] } from rfl]
      rw [ih]
      simp [hn, Nat.add_assoc, Nat.add_comm 1]
    | some n =>
      rw [show bump (some a) ps.1 (some n) =
        { count := a.count + 1, participants := a.participants ++ [ps.1],
          notes := a.notes ++ [(ps.1, n)] } from rfl]
      rw [ih]
      simp [hn, Nat.add_assoc, Nat.add_comm 1]

theorem bump_fold_none (k : String) (ps : String × Slots) (t : List (String × Slots)) :
    (ps :: t).foldl (fun o ps => some (bump o ps.1 (noteAt ps.2 k))) none =
      some { count := (ps :: t).length
             participants := (ps :: t).map Prod.fst
             notes := (ps :: t).filterMap
               (fun ps => (noteAt ps.2 k).map (fun n => (ps.1, n))) } := by
  rw [List.foldl_cons]
  cases hn : noteAt ps.2 k with
  | none =>
    rw [show bump none ps.1 none = { count := 1, participants := [ps.1], notes := [] } from rfl]
    rw [bump_fold_some k t]
    simp [hn, Nat.add_comm 1]
  | some n =>
    rw [show bump none ps.1 (some n) =
      { count := 1, participants := [ps.1], notes := [(ps.1, n)] } from rfl]
    rw [bump_fold_some k t]
    simp [hn, Nat.add_comm 1]

/-- C3: for every per-participant snapshot (participant names mapped to
slots blobs with distinct keys, in submission order), the aggregation
assigns to each slot key marked available by at least one participant the
count of available participants, the participant names in submission
order, and the (participant, note) pairs with non-empty notes; keys
marked by nobody are absent. -/
theorem aggregate_heatmap (snap : List (String × Slots)) (k : String)
    (hnd : ∀ ps ∈ snap, (ps.2.map Prod.fst).Nodup) :
    jsGet (aggregate snap) k =
      if markers snap k = [] then none
      else
        some { count := (markers snap k).length
               participants := (markers snap k).map Prod.fst
               notes := (markers snap k).filterMap
                 (fun ps => (noteAt ps.2 k).map (fun n => (ps.1, n))) } := by
  unfold aggregate
  rw [aggregate_fold k snap [] hnd]
  cases hms : markers snap k with
  | nil => simp [jsGet]
  | cons ps t =>
    rw [show jsGet ([] : List (String × SlotAgg)) k = none from rfl]
    rw [bump_fold_none k ps t]
    simp

/-- Snapshot used by the C3 witness: Aria and Bram both mark
"2024-06-01-19" available, in that submission order. -/
def sampleSnap : List (String × Slots) :=
  [("Aria", [("2024-06-01-18", { available := true, note := "remote" }),
             ("2024-06-01-19", { available := true, note := "" })]),
   ("Bram", [("2024-06-01-19", { available := true, note := "" })])]

/-- Witness for C3: two participants marking the same slot aggregate to
count 2 with both names in submission order. -/
theorem aggregate_heatmap_witness :
    jsGet (aggregate sampleSnap) "2024-06-01-19" =
      some { count := 2, participants := ["Aria", "Bram"], notes := [] } :=
  (aggregate_heatmap sampleSnap "2024-06-01-19" (by decide)).trans (by decide)

end QuestBoard
